import Mathlib

/- Shallow embedding of the snap record-transformation core (datamap.py, seesv.py).

   Python dict values are modelled by `PyVal` (Python `None` plus strings, the
   value population these components manipulate); a record (Python dict) is a
   total function from keys to `Option PyVal`, where `Option.none` means the
   key is absent and `some PyVal.none` means the key is bound to Python None.
   Python truthiness on these values: None and the empty string are falsy.
   Exceptions are modelled with `Except`; datasources are modelled as a class
   name together with a table of named lookup operations (`hasattr`/`getattr`
   dispatch becomes a table lookup). -/

namespace Snap

inductive PyVal where
  | none
  | str (s : String)
deriving DecidableEq, Repr

/-- Python truthiness of a record value: `None` and `""` are falsy. -/
def PyVal.truthy : PyVal → Bool
  | PyVal.none => false
  | PyVal.str s => s ≠ ""

/-- A Python dict used as a record: absent keys map to `Option.none`. -/
def Record := String → Option PyVal

def remptyRecord : Record := fun _ => Option.none

/-- Dict assignment `r[k] = v` (with `v = Option.none` meaning deletion). -/
def rset (r : Record) (k : String) (v : Option PyVal) : Record :=
  fun k' => if k' = k then v else r k'

/-- Build a record from a list of key/value pairs, later pairs winning. -/
def rofList (ps : List (String × PyVal)) : Record :=
  ps.foldl (fun r p => rset r p.1 (some p.2)) remptyRecord

/-- Truthiness of `source_record.get(name)`: false when the key is missing
    or its value is falsy (Python None or the empty string). -/
def truthyAt (r : Record) (n : String) : Bool :=
  match r n with
  | some v => v.truthy
  | Option.none => false

/-- Truth of `record_dict.get(name) is None`: the key is absent or bound to
    Python None. -/
def pyGetIsNone (r : Record) (n : String) : Bool :=
  match r n with
  | Option.none => true
  | some PyVal.none => true
  | some (PyVal.str _) => false

/- Resolvers: FieldValueResolver (fallback chain) and ConstValueResolver. -/

inductive FieldResolver where
  | chain (field_names : List String)
  | const (value : PyVal)
deriving DecidableEq

/-- Body of `FieldValueResolver.resolve`: scan the candidate names in order,
    return `source_record[name]` for the first name whose `get` is truthy;
    fall through to Python None when no candidate matches. -/
def chainResolve : List String → Record → PyVal
  | [], _ => PyVal.none
  | n :: rest, src =>
    match src n with
    | some v => if v.truthy then v else chainResolve rest src
    | Option.none => chainResolve rest src

def FieldResolver.resolve : FieldResolver → Record → PyVal
  | FieldResolver.chain names, src => chainResolve names src
  | FieldResolver.const v, _ => v

/-- Python `str.split('|')` over the string's characters: pieces between pipe
    characters, in order (so an empty input gives one empty piece, and
    adjacent pipes give empty pieces). -/
def splitPipeChars : List Char → List Char → List String
  | [], cur => [String.mk cur.reverse]
  | c :: rest, cur =>
    if c = '|' then String.mk cur.reverse :: splitPipeChars rest []
    else splitPipeChars rest (c :: cur)

def splitPipe (s : String) : List String :=
  splitPipeChars s.data []

/-- `FieldValueResolver.__init__`: split the designator on pipes. -/
def mkFieldValueResolver (field_name_string : String) : FieldResolver :=
  FieldResolver.chain (splitPipe field_name_string)

/- FieldValueMap -/

def ValueMap := String → Option FieldResolver

def vmEmpty : ValueMap := fun _ => Option.none

/-- `FieldValueMap.add_resolver`. -/
def vmAddResolver (vm : ValueMap) (r : FieldResolver) (field_name : String) : ValueMap :=
  fun k => if k = field_name then some r else vm k

/-- `FieldValueMap.get_value`: raises when no resolver is registered under
    the name, otherwise applies the registered resolver to the record. -/
def vmGetValue (vm : ValueMap) (field_name : String) (source_record : Record) :
    Except String PyVal :=
  match vm field_name with
  | Option.none =>
      Except.error ("No FieldValueResolver registered with value map under the name " ++ field_name)
  | some resolver => Except.ok (resolver.resolve source_record)

/- Datasources: a class name plus a table of named lookup operations. -/

structure Datasource where
  className : String
  methods : String → Option (String → Record → ValueMap → PyVal)

inductive DmapError where
  | noSuchTargetField (field_name : String)
  | noDatasourceForField (field_name : String)
  | noSuchLookupMethod (datasource_classname : String) (method_name : String)
  | genericError (msg : String)

/- RecordTransformer -/

structure RecordTransformer where
  target_record_fields : List String
  datasources : String → Option Datasource
  field_map : String → Option FieldResolver
  value_map : ValueMap

def initTransformer : RecordTransformer :=
  { target_record_fields := []
    datasources := fun _ => Option.none
    field_map := fun _ => Option.none
    value_map := vmEmpty }

/-- `RecordTransformer.add_target_field`: idempotent set insert. -/
def RecordTransformer.add_target_field (t : RecordTransformer) (target_field_name : String) :
    RecordTransformer :=
  if target_field_name ∈ t.target_record_fields then t
  else { t with target_record_fields := t.target_record_fields ++ [target_field_name] }

/-- `RecordTransformer.map_source_to_target_field`: raises NoSuchTargetField on
    an undeclared field; otherwise stores a FieldValueResolver in `field_map`
    and registers the same resolver in the value map. -/
def RecordTransformer.map_source_to_target_field (t : RecordTransformer)
    (source_field_designator target_field_name : String) :
    Except DmapError RecordTransformer :=
  if target_field_name ∈ t.target_record_fields then
    let resolver := mkFieldValueResolver source_field_designator
    Except.ok
      { t with
        field_map := fun k => if k = target_field_name then some resolver else t.field_map k
        value_map := vmAddResolver t.value_map resolver target_field_name }
  else Except.error (DmapError.noSuchTargetField target_field_name)

/-- `RecordTransformer.map_const_to_target_field`: raises NoSuchTargetField on
    an undeclared field; otherwise stores a ConstValueResolver in `field_map`
    (and, unlike the chain path, touches the value map not at all). -/
def RecordTransformer.map_const_to_target_field (t : RecordTransformer)
    (target_field_name : String) (value : PyVal) :
    Except DmapError RecordTransformer :=
  if target_field_name ∈ t.target_record_fields then
    Except.ok
      { t with
        field_map := fun k =>
          if k = target_field_name then some (FieldResolver.const value) else t.field_map k }
  else Except.error (DmapError.noSuchTargetField target_field_name)

/-- `RecordTransformer.register_datasource`: raises a generic exception on an
    undeclared field; otherwise stores the datasource reference. -/
def RecordTransformer.register_datasource (t : RecordTransformer)
    (target_field_name : String) (datasource : Datasource) :
    Except DmapError RecordTransformer :=
  if target_field_name ∈ t.target_record_fields then
    Except.ok
      { t with
        datasources := fun k =>
          if k = target_field_name then some datasource else t.datasources k }
  else
    Except.error (DmapError.genericError
      ("No target field " ++ target_field_name ++ " has been added to the transformer."))

/-- `RecordTransformer.lookup`: no registered datasource raises
    NoDatasourceForField; a datasource lacking the `lookup_<field>` operation
    raises NoSuchLookupMethod with the datasource class name and the operation
    name; otherwise the operation is invoked on
    (field name, source record, value map). -/
def RecordTransformer.lookup (t : RecordTransformer) (target_field_name : String)
    (source_record : Record) : Except DmapError PyVal :=
  match t.datasources target_field_name with
  | Option.none => Except.error (DmapError.noDatasourceForField target_field_name)
  | some datasource =>
    let transform_func_name := "lookup_" ++ target_field_name
    match datasource.methods transform_func_name with
    | Option.none =>
        Except.error (DmapError.noSuchLookupMethod datasource.className transform_func_name)
    | some transform_func =>
        Except.ok (transform_func target_field_name source_record t.value_map)

/-- Per-field branch of `transform`'s loop body: `some` of a lookup / resolver
    outcome when the field has a datasource or a field_map entry (datasource
    checked first), `none` when it has neither and the loop writes nothing. -/
def resolveField (t : RecordTransformer) (target_field_name : String)
    (source_record : Record) : Option (Except DmapError PyVal) :=
  match t.datasources target_field_name with
  | some _ => some (t.lookup target_field_name source_record)
  | Option.none =>
    match t.field_map target_field_name with
    | some resolver => some (Except.ok (resolver.resolve source_record))
    | Option.none => Option.none

/-- The field loop of `RecordTransformer.transform`, threading the target
    record being built; a raised lookup exception aborts the loop. -/
def transformFields (t : RecordTransformer) (source_record : Record) :
    List String → Record → Except DmapError Record
  | [], target_record => Except.ok target_record
  | f :: rest, target_record =>
    match resolveField t f source_record with
    | Option.none => transformFields t source_record rest target_record
    | some (Except.error e) => Except.error e
    | some (Except.ok v) =>
        transformFields t source_record rest (rset target_record f (some v))

/-- `RecordTransformer.transform`: start from a fresh dict holding the kwargs
    pairs, then run the field loop over the declared target fields. -/
def RecordTransformer.transform (t : RecordTransformer) (source_record : Record)
    (kwargs : List (String × PyVal)) : Except DmapError Record :=
  transformFields t source_record t.target_record_fields (rofList kwargs)

/- Heap-level view of `transform`, for the frame/no-mutation claim: records
   live in a heap (a list of records addressed by index); `transform` reads
   the source record from its address, allocates a fresh cell for the target
   record, and all of its dict writes target that fresh cell.  Resolvers and
   lookup operations are pure functions of the record value, i.e. read-only,
   matching the claim's hypothesis. -/

abbrev Heap := List Record

/-- Write `k ↦ v` into the record stored at heap address `a` (no-op when the
    address is unallocated). -/
def heapWrite (h : Heap) (a : Nat) (k : String) (v : Option PyVal) : Heap :=
  match List.get? h a with
  | Option.none => h
  | some r => List.set h a (rset r k v)

/-- The field loop of `transform`, writing into the heap cell `a` that holds
    the target record being built. -/
def transformHeapFields (t : RecordTransformer) (source_record : Record) :
    List String → Heap → Nat → Except DmapError Heap
  | [], h, _ => Except.ok h
  | f :: rest, h, a =>
    match resolveField t f source_record with
    | Option.none => transformHeapFields t source_record rest h a
    | some (Except.error e) => Except.error e
    | some (Except.ok v) => transformHeapFields t source_record rest (heapWrite h a f (some v)) a

/-- Heap-level `RecordTransformer.transform`: read the source record at
    `srcAddr`, allocate a fresh cell (`target_record = {}` as a new dict, at
    the fresh address `h.length`), copy the kwargs pairs into it, run the
    field loop against it, and return the heap with the target address. -/
def transformHeap (t : RecordTransformer) (h : Heap) (srcAddr : Nat)
    (kwargs : List (String × PyVal)) : Except DmapError (Heap × Nat) :=
  let source_record := (List.get? h srcAddr).getD remptyRecord
  let a := List.length h
  let h1 : Heap := List.append h [remptyRecord]
  let h2 := kwargs.foldl (fun hh p => heapWrite hh a p.1 (some p.2)) h1
  match transformHeapFields t source_record t.target_record_fields h2 a with
  | Except.error e => Except.error e
  | Except.ok h3 => Except.ok (h3, a)

/- ComplianceStatsProcessor (seesv.py).  `required_record_fields` is the
   dict of required field name → declared type, modelled as an association
   list in its iteration order; the error table (record index → (field,
   failure kind)) is a partial map on indices. -/

/-- `ComplianceStatsProcessor.match_format`: pass-through stub, always True. -/
def match_format (_obj : PyVal) : Bool := true

structure ComplianceStats where
  required_fields : List (String × String)
  valid_record_count : Nat
  invalid_record_count : Nat
  error_table : Nat → Option (String × String)
  record_index : Nat

def initComplianceStats (required_record_fields : List (String × String)) : ComplianceStats :=
  { required_fields := required_record_fields
    valid_record_count := 0
    invalid_record_count := 0
    error_table := fun _ => Option.none
    record_index := 0 }

/-- The required-field scan of `ComplianceStatsProcessor._process`: first
    failing field wins (`break`), reported as `(field, "null")` when
    `record_dict.get(name) is None`, else `(field, "invalid_type")` when
    `match_format` rejects the present value. -/
def findFirstError : List (String × String) → Record → Option (String × String)
  | [], _ => Option.none
  | (name, _datatype) :: rest, record_dict =>
    if pyGetIsNone record_dict name then some (name, "null")
    else if ¬ match_format ((record_dict name).getD PyVal.none) then some (name, "invalid_type")
    else findFirstError rest record_dict

/-- `ComplianceStatsProcessor._process`: bump the record index, scan the
    required fields, record at most one error for this record, increment
    exactly one of the two counters, and hand the record back unchanged. -/
def cstatsProcess (s : ComplianceStats) (record_dict : Record) : ComplianceStats × Record :=
  let idx := s.record_index + 1
  match findFirstError s.required_fields record_dict with
  | some err =>
      ({ s with
          record_index := idx
          error_table := fun j => if j = idx then some err else s.error_table j
          invalid_record_count := s.invalid_record_count + 1 },
       record_dict)
  | Option.none =>
      ({ s with
          record_index := idx
          valid_record_count := s.valid_record_count + 1 },
       record_dict)

/-- Property `total_records`. -/
def ComplianceStats.total_records (s : ComplianceStats) : Nat :=
  s.valid_record_count + s.invalid_record_count

/-- Property `valid_records`. -/
def ComplianceStats.valid_records (s : ComplianceStats) : Nat :=
  s.valid_record_count

/-- Property `invalid_records`. -/
def ComplianceStats.invalid_records (s : ComplianceStats) : Nat :=
  s.invalid_record_count

/-- Fold `cstatsProcess` over a batch of records, keeping the returned
    records. -/
def cstatsRun (s : ComplianceStats) : List Record → ComplianceStats × List Record
  | [] => (s, [])
  | r :: rest =>
    let (s1, r1) := cstatsProcess s r
    let (s2, rs) := cstatsRun s1 rest
    (s2, r1 :: rs)

/- Dictionary2CSVProcessor (seesv.py).  Its mutable state is the record
   count; the printed output is modelled as the list of emitted lines. -/

/-- `str(data)` after the `if data is None: data = ''` substitution: a cell of
    the printed row is the stored string, or `""` when the field is missing or
    bound to None. -/
def csvCell (data_dict : Record) (field : String) : String :=
  match data_dict field with
  | some (PyVal.str s) => s
  | some PyVal.none => ""
  | Option.none => ""

/-- The data row printed for a record: its cells in header-field order,
    joined by the delimiter. -/
def csvRow (header_fields : List String) (delimiter : String) (data_dict : Record) : String :=
  String.intercalate delimiter (header_fields.map (csvCell data_dict))

/-- `Dictionary2CSVProcessor._process`: on the first call (`record_count == 0`)
    print only the joined header; on every later call print the record's data
    row; always bump the count and return the record unchanged.  Result:
    (new record count, printed line, returned record). -/
def d2csvProcess (header_fields : List String) (delimiter : String)
    (record_count : Nat) (data_dict : Record) : Nat × String × Record :=
  if record_count = 0 then
    (record_count + 1, String.intercalate delimiter header_fields, data_dict)
  else
    (record_count + 1, csvRow header_fields delimiter data_dict, data_dict)

/-- Fold `d2csvProcess` over a batch of records starting from a fresh
    processor (`record_count = 0`), collecting the printed lines and the
    returned records. -/
def d2csvRun (header_fields : List String) (delimiter : String) :
    Nat → List Record → List String × List Record
  | _, [] => ([], [])
  | c, r :: rest =>
    let (c1, line, ret) := d2csvProcess header_fields delimiter c r
    let (lines, rets) := d2csvRun header_fields delimiter c1 rest
    (line :: lines, ret :: rets)

/- Concrete fixtures used by witnesses and counterexamples.  `orInit` unwraps
   an operation known to succeed (on failure it falls back to the initial
   transformer; the accompanying theorems check success explicitly). -/

def orInit (e : Except DmapError RecordTransformer) : RecordTransformer :=
  match e with
  | Except.ok t => t
  | Except.error _ => initTransformer

/-- Stub datasource for the spec's end-to-end example: its only lookup
    operation is `lookup_region`, returning "EAST" for any input. -/
def dsStub : Datasource :=
  { className := "StubDatasource"
    methods := fun n =>
      if n = "lookup_region" then some (fun _ _ _ => PyVal.str "EAST") else Option.none }

def t0Demo : RecordTransformer :=
  ((initTransformer.add_target_field "fullname").add_target_field "status").add_target_field "region"

def t1Demo : RecordTransformer :=
  orInit (t0Demo.map_source_to_target_field "full_name|name" "fullname")

def t2Demo : RecordTransformer :=
  orInit (t1Demo.map_const_to_target_field "status" (PyVal.str "active"))

def tDemo : RecordTransformer :=
  orInit (t2Demo.register_datasource "region" dsStub)

def srcDemo : Record := rofList [("name", PyVal.str "Jane Doe")]

/-- Expected output of `tDemo.transform srcDemo [("extra", "e")]`: the extra
    pair first, then fullname, status, region in declaration order. -/
def outDemo : Record :=
  rset (rset (rset (rofList [("extra", PyVal.str "e")])
        "fullname" (some (PyVal.str "Jane Doe")))
      "status" (some (PyVal.str "active")))
    "region" (some (PyVal.str "EAST"))

/-- Expected output of `tDemo.transform remptyRecord []`: no chain candidate
    matches, so fullname is present but bound to Python None. -/
def outDemoEmpty : Record :=
  rset (rset (rset (rofList [])
        "fullname" (some PyVal.none))
      "status" (some (PyVal.str "active")))
    "region" (some (PyVal.str "EAST"))

/-- Datasource whose only operation is `lookup_f`, returning "L". -/
def dsF : Datasource :=
  { className := "FDatasource"
    methods := fun n =>
      if n = "lookup_f" then some (fun _ _ _ => PyVal.str "L") else Option.none }

/-- Transformer with target field "f" const-mapped in `field_map`. -/
def tBothMid : RecordTransformer :=
  orInit ((initTransformer.add_target_field "f").map_const_to_target_field "f" (PyVal.str "v"))

/-- `tBothMid` with a datasource additionally registered for "f": the field
    now sits in both stores. -/
def tBoth : RecordTransformer :=
  orInit (tBothMid.register_datasource "f" dsF)

def outBoth : Record := rset (rofList []) "f" (some (PyVal.str "L"))

/-- Transformer whose only mapping is a const mapping for "status". -/
def tConstOnly : RecordTransformer :=
  orInit ((initTransformer.add_target_field "status").map_const_to_target_field "status"
    (PyVal.str "active"))

/-- Transformer whose field "g" is bound to a datasource that lacks the
    `lookup_g` operation. -/
def tWrong : RecordTransformer :=
  orInit ((initTransformer.add_target_field "g").register_datasource "g" dsF)

/- Fixtures for the compliance-stats scenario. -/

def reqNameEmail : List (String × String) := [("name", "string"), ("email", "string")]

def reqEmailName : List (String × String) := [("email", "string"), ("name", "string")]

def recA : Record := rofList [("name", PyVal.str "A"), ("email", PyVal.str "a@x.com")]

def recB : Record := rofList [("name", PyVal.str "B")]

def recC : Record := rofList [("name", PyVal.str "C"), ("email", PyVal.str "")]

/-- Final processor state after the three-record scenario. -/
def c1Run : ComplianceStats :=
  (cstatsRun (initComplianceStats reqNameEmail) [recA, recB, recC]).1

/-- The same scenario under the opposite required-field iteration order. -/
def c1RunSwapped : ComplianceStats :=
  (cstatsRun (initComplianceStats reqEmailName) [recA, recB, recC]).1

/-- Processor state after running the compliance check on `recB` alone. -/
def cbState : ComplianceStats :=
  (cstatsProcess (initComplianceStats reqNameEmail) recB).1

/-- Expected output of `tDemo.transform srcDemo []` (no kwargs). -/
def outDemoNoExtras : Record :=
  rset (rset (rset (rofList [])
        "fullname" (some (PyVal.str "Jane Doe")))
      "status" (some (PyVal.str "active")))
    "region" (some (PyVal.str "EAST"))

/-- One-record heap holding the demo source record at address 0. -/
def heapDemo : Heap := [srcDemo]

/-- Heap after the heap-level transform: source untouched at address 0, the
    freshly allocated target record at address 1. -/
def heapDemoOut : Heap := [srcDemo, outDemoNoExtras]

/- Helper lemmas about the transform field loop. -/

theorem transformFields_notmem (t : RecordTransformer) (src : Record) (fields : List String) :
    ∀ (acc out : Record), transformFields t src fields acc = Except.ok out →
      ∀ (k : String), k ∉ fields → out k = acc k := by
  induction fields with
  | nil =>
      intro acc out h k _
      simp only [transformFields] at h
      cases h
      rfl
  | cons f rest ih =>
      intro acc out h k hk
      have hkf : k ≠ f := fun e => hk (e ▸ List.mem_cons_self f rest)
      have hkrest : k ∉ rest := fun e => hk (List.mem_cons_of_mem f e)
      cases hr : resolveField t f src with
      | none =>
          simp only [transformFields, hr] at h
          exact ih acc out h k hkrest
      | some res =>
          cases res with
          | error e =>
              simp only [transformFields, hr] at h
              cases h
          | ok v =>
              simp only [transformFields, hr] at h
              have hstep := ih _ out h k hkrest
              rw [hstep]
              simp [rset, hkf]

theorem transformFields_resolve_none (t : RecordTransformer) (src : Record)
    (fields : List String) :
    ∀ (acc out : Record), transformFields t src fields acc = Except.ok out →
      ∀ (k : String), resolveField t k src = Option.none → out k = acc k := by
  induction fields with
  | nil =>
      intro acc out h k _
      simp only [transformFields] at h
      cases h
      rfl
  | cons f rest ih =>
      intro acc out h k hk
      cases hr : resolveField t f src with
      | none =>
          simp only [transformFields, hr] at h
          exact ih acc out h k hk
      | some res =>
          cases res with
          | error e =>
              simp only [transformFields, hr] at h
              cases h
          | ok v =>
              simp only [transformFields, hr] at h
              have hstep := ih _ out h k hk
              rw [hstep]
              by_cases hkf : k = f
              · subst hkf
                rw [hk] at hr
                cases hr
              · simp [rset, hkf]

theorem transformFields_resolve_ok (t : RecordTransformer) (src : Record)
    (fields : List String) :
    ∀ (acc out : Record), transformFields t src fields acc = Except.ok out →
      ∀ (k : String) (v : PyVal), k ∈ fields →
        resolveField t k src = some (Except.ok v) → out k = some v := by
  induction fields with
  | nil =>
      intro _ _ _ k _ hmem _
      cases hmem
  | cons f rest ih =>
      intro acc out h k v hmem hres
      cases hr : resolveField t f src with
      | none =>
          simp only [transformFields, hr] at h
          rcases List.mem_cons.mp hmem with hkf | hkrest
          · subst hkf
            rw [hres] at hr
            cases hr
          · exact ih acc out h k v hkrest hres
      | some res =>
          cases res with
          | error e =>
              simp only [transformFields, hr] at h
              cases h
          | ok w =>
              simp only [transformFields, hr] at h
              by_cases hkrest : k ∈ rest
              · exact ih _ out h k v hkrest hres
              · rcases List.mem_cons.mp hmem with hkf | hkr
                · subst hkf
                  rw [hres] at hr
                  have hw : w = v := by
                    injection hr with hr1
                    injection hr1 with hr2
                    exact hr2.symm
                  subst hw
                  have hstep := transformFields_notmem t src rest _ out h k hkrest
                  rw [hstep]
                  simp [rset]
                · exact absurd hkr hkrest

/- Helper lemmas about the fallback chain. -/

theorem chainResolve_first_match (src : Record) :
    ∀ (pre : List String) (n : String) (post : List String) (v : PyVal),
      (∀ m ∈ pre, truthyAt src m = false) → src n = some v → v.truthy = true →
      chainResolve (pre ++ n :: post) src = v := by
  intro pre
  induction pre with
  | nil =>
      intro n post v _ hn hv
      simp only [List.nil_append, chainResolve, hn, hv]
      simp [hv]
  | cons m pre ih =>
      intro n post v hpre hn hv
      have hm : truthyAt src m = false := hpre m (List.mem_cons_self m pre)
      have hrest : ∀ x ∈ pre, truthyAt src x = false :=
        fun x hx => hpre x (List.mem_cons_of_mem m hx)
      cases hsm : src m with
      | none =>
          simp only [List.cons_append, chainResolve, hsm]
          exact ih n post v hrest hn hv
      | some w =>
          have hw : w.truthy = false := by
            have := hm
            rw [truthyAt, hsm] at this
            exact this
          simp only [List.cons_append, chainResolve, hsm, hw]
          simp only [Bool.false_eq_true, if_false]
          exact ih n post v hrest hn hv

theorem chainResolve_all_absent (src : Record) :
    ∀ (names : List String), (∀ m ∈ names, truthyAt src m = false) →
      chainResolve names src = PyVal.none := by
  intro names
  induction names with
  | nil => intro _; rfl
  | cons m rest ih =>
      intro hall
      have hm : truthyAt src m = false := hall m (List.mem_cons_self m rest)
      have hrest : ∀ x ∈ rest, truthyAt src x = false :=
        fun x hx => hall x (List.mem_cons_of_mem m hx)
      cases hsm : src m with
      | none =>
          simp only [chainResolve, hsm]
          exact ih hrest
      | some w =>
          have hw : w.truthy = false := by
            have := hm
            rw [truthyAt, hsm] at this
            exact this
          simp only [chainResolve, hsm, hw]
          simp only [Bool.false_eq_true, if_false]
          exact ih hrest

/-- C2: `transform` starts from the kwargs pairs and resolves every declared
    target field with precedence datasource lookup, then field_map resolver,
    else nothing is written: an unresolvable target field is omitted, a
    resolved one overwrites any kwargs pair of the same name, and keys that
    are not resolved target fields keep their kwargs value (absent when no
    kwargs pair supplies them). -/
theorem transform_resolution_precedence (t : RecordTransformer) (src : Record)
    (kwargs : List (String × PyVal)) (out : Record)
    (hok : t.transform src kwargs = Except.ok out) :
    (∀ f ds v, f ∈ t.target_record_fields → t.datasources f = some ds →
        t.lookup f src = Except.ok v → out f = some v) ∧
    (∀ f r, f ∈ t.target_record_fields → t.datasources f = Option.none →
        t.field_map f = some r → out f = some (r.resolve src)) ∧
    (∀ f, t.datasources f = Option.none → t.field_map f = Option.none →
        out f = rofList kwargs f) ∧
    (∀ f, f ∉ t.target_record_fields → out f = rofList kwargs f) := by
  refine ⟨?_, ?_, ?_, ?_⟩
  · intro f ds v hmem hds hlk
    have hres : resolveField t f src = some (Except.ok v) := by
      rw [resolveField, hds, hlk]
    exact transformFields_resolve_ok t src t.target_record_fields _ out hok f v hmem hres
  · intro f r hmem hds hfm
    have hres : resolveField t f src = some (Except.ok (r.resolve src)) := by
      rw [resolveField, hds, hfm]
    exact transformFields_resolve_ok t src t.target_record_fields _ out hok f _ hmem hres
  · intro f hds hfm
    have hres : resolveField t f src = Option.none := by
      rw [resolveField, hds, hfm]
    exact transformFields_resolve_none t src t.target_record_fields _ out hok f hres
  · intro f hmem
    exact transformFields_notmem t src t.target_record_fields _ out hok f hmem

/-- Witness for C2 on the spec's end-to-end example: tDemo maps fullname via
    the chain "full_name|name", status via the constant "active", region via
    the stub datasource, and the caller supplies the extra pair
    ("extra", "e"); each resolution case of the theorem is exercised. -/
theorem transform_resolution_precedence_witness :
    tDemo.transform srcDemo [("extra", PyVal.str "e")] = Except.ok outDemo ∧
    "fullname" ∈ tDemo.target_record_fields ∧
    tDemo.datasources "fullname" = Option.none ∧
    tDemo.field_map "fullname" = some (mkFieldValueResolver "full_name|name") ∧
    outDemo "fullname" = some (PyVal.str "Jane Doe") ∧
    outDemo "region" = some (PyVal.str "EAST") ∧
    outDemo "extra" = some (PyVal.str "e") ∧
    outDemo "other" = Option.none :=
  ⟨rfl, by decide, rfl, rfl,
   (transform_resolution_precedence tDemo srcDemo [("extra", PyVal.str "e")] outDemo rfl).2.1
     "fullname" (mkFieldValueResolver "full_name|name") (by decide) rfl rfl,
   (transform_resolution_precedence tDemo srcDemo [("extra", PyVal.str "e")] outDemo rfl).1
     "region" dsStub (PyVal.str "EAST") (by decide) rfl rfl,
   (transform_resolution_precedence tDemo srcDemo [("extra", PyVal.str "e")] outDemo rfl).2.2.1
     "extra" rfl rfl,
   (transform_resolution_precedence tDemo srcDemo [("extra", PyVal.str "e")] outDemo rfl).2.2.2
     "other" (by decide)⟩

/-- C3: a chain resolver built from a pipe-delimited designator scans its
    candidates in order and returns the record value of the first candidate
    whose `get` is truthy; a missing key and an empty-string (or None) value
    are treated identically as absent; with candidates a, b the record with
    a empty and b "x" resolves to "x", and with a "y" it resolves to "y". -/
theorem chain_resolver_first_match :
    (∀ (s : String) (src : Record) (pre : List String) (n : String) (post : List String)
        (v : PyVal),
      splitPipe s = pre ++ n :: post →
      (∀ m ∈ pre, truthyAt src m = false) →
      src n = some v → v.truthy = true →
      (mkFieldValueResolver s).resolve src = v) ∧
    (∀ (s : String) (src : Record),
      (∀ m ∈ splitPipe s, truthyAt src m = false) →
      (mkFieldValueResolver s).resolve src = PyVal.none) ∧
    (∀ (src : Record) (m : String),
      src m = Option.none ∨ src m = some (PyVal.str "") ∨ src m = some PyVal.none →
      truthyAt src m = false) ∧
    (mkFieldValueResolver "a|b").resolve (rofList [("a", PyVal.str ""), ("b", PyVal.str "x")])
      = PyVal.str "x" ∧
    (mkFieldValueResolver "a|b").resolve (rofList [("a", PyVal.str "y"), ("b", PyVal.str "x")])
      = PyVal.str "y" := by
  refine ⟨?_, ?_, ?_, by decide, by decide⟩
  · intro s src pre n post v hsplit hpre hn hv
    show chainResolve (splitPipe s) src = v
    rw [hsplit]
    exact chainResolve_first_match src pre n post v hpre hn hv
  · intro s src hall
    show chainResolve (splitPipe s) src = PyVal.none
    exact chainResolve_all_absent src (splitPipe s) hall
  · intro src m hcase
    rcases hcase with h | h | h <;> rw [truthyAt, h] <;> rfl

/-- Witness for C3: first-match instantiated on candidates a, b with a bound
    to the empty string, falling through to b. -/
theorem chain_resolver_first_match_witness :
    splitPipe "a|b" = ["a"] ++ "b" :: [] ∧
    (mkFieldValueResolver "a|b").resolve (rofList [("a", PyVal.str ""), ("b", PyVal.str "x")])
      = PyVal.str "x" :=
  ⟨by decide,
   chain_resolver_first_match.1 "a|b" (rofList [("a", PyVal.str ""), ("b", PyVal.str "x")])
     ["a"] "b" [] (PyVal.str "x") (by decide) (by decide) (by decide) (by decide)⟩

/-- C9: a target field mapped to a chain resolver, with no datasource
    registered, whose candidates all fail to produce a truthy value, is still
    written to the output bound to Python None (present-but-null, overriding
    any kwargs pair of that name). -/
theorem unresolved_chain_field_null (t : RecordTransformer) (src : Record)
    (kwargs : List (String × PyVal)) (out : Record) (f : String) (names : List String)
    (hmem : f ∈ t.target_record_fields)
    (hds : t.datasources f = Option.none)
    (hfm : t.field_map f = some (FieldResolver.chain names))
    (hnone : ∀ m ∈ names, truthyAt src m = false)
    (hok : t.transform src kwargs = Except.ok out) :
    out f = some PyVal.none := by
  have hres : resolveField t f src = some (Except.ok PyVal.none) := by
    rw [resolveField, hds, hfm]
    show some (Except.ok (chainResolve names src)) = some (Except.ok PyVal.none)
    rw [chainResolve_all_absent src names hnone]
  exact transformFields_resolve_ok t src t.target_record_fields _ out hok f PyVal.none hmem hres

/-- Witness for C9: transforming the empty record with tDemo leaves fullname
    present in the output but bound to Python None. -/
theorem unresolved_chain_field_null_witness :
    tDemo.transform remptyRecord [] = Except.ok outDemoEmpty ∧
    "fullname" ∈ tDemo.target_record_fields ∧
    tDemo.datasources "fullname" = Option.none ∧
    tDemo.field_map "fullname" = some (FieldResolver.chain ["full_name", "name"]) ∧
    outDemoEmpty "fullname" = some PyVal.none :=
  ⟨rfl, by decide, rfl, by decide,
   unresolved_chain_field_null tDemo remptyRecord [] outDemoEmpty "fullname"
     ["full_name", "name"] (by decide) rfl (by decide) (by decide) rfl⟩

/-- C4 counterexample: after two successful calls — a const mapping for "f"
    followed by a datasource registration for "f" — the field sits in both
    `field_map` and `datasources` at once, so the stores are not mutually
    exclusive. -/
theorem field_map_datasource_overlap_counterexample :
    (initTransformer.add_target_field "f").map_const_to_target_field "f" (PyVal.str "v")
        = Except.ok tBothMid ∧
    tBothMid.register_datasource "f" dsF = Except.ok tBoth ∧
    (tBoth.field_map "f").isSome = true ∧
    (tBoth.datasources "f").isSome = true :=
  ⟨rfl, rfl, rfl, rfl⟩

/-- C4 amended: mapping calls never evict the other store's entry, so a field
    can be in both `field_map` and `datasources`; when it is, `transform`
    resolves it through the datasource lookup (lookup is checked first), the
    field_map resolver being ignored. -/
theorem datasource_precedence_over_field_map (t : RecordTransformer) (src : Record)
    (kwargs : List (String × PyVal)) (out : Record) (f : String) (ds : Datasource)
    (r : FieldResolver) (v : PyVal)
    (hmem : f ∈ t.target_record_fields)
    (hds : t.datasources f = some ds)
    (_hfm : t.field_map f = some r)
    (hlk : t.lookup f src = Except.ok v)
    (hok : t.transform src kwargs = Except.ok out) :
    out f = some v := by
  have hres : resolveField t f src = some (Except.ok v) := by
    rw [resolveField, hds, hlk]
  exact transformFields_resolve_ok t src t.target_record_fields _ out hok f v hmem hres

/-- Witness for the amended C4: on tBoth, where "f" has both a const resolver
    bound to "v" and a datasource whose lookup returns "L", transform emits
    the lookup result "L". -/
theorem datasource_precedence_over_field_map_witness :
    tBoth.transform remptyRecord [] = Except.ok outBoth ∧
    "f" ∈ tBoth.target_record_fields ∧
    tBoth.datasources "f" = some dsF ∧
    tBoth.field_map "f" = some (FieldResolver.const (PyVal.str "v")) ∧
    tBoth.lookup "f" remptyRecord = Except.ok (PyVal.str "L") ∧
    outBoth "f" = some (PyVal.str "L") :=
  ⟨rfl, by decide, rfl, by decide, rfl,
   datasource_precedence_over_field_map tBoth remptyRecord [] outBoth "f" dsF
     (FieldResolver.const (PyVal.str "v")) (PyVal.str "L") (by decide) rfl (by decide) rfl rfl⟩

/-- C5 counterexample: a successful const mapping stores a resolver in
    `field_map` but, contrary to the claim, registers nothing in the value
    map — `get_value` on the const-mapped name fails. -/
theorem value_map_const_path_counterexample :
    (initTransformer.add_target_field "status").map_const_to_target_field "status"
        (PyVal.str "active") = Except.ok tConstOnly ∧
    tConstOnly.field_map "status" = some (FieldResolver.const (PyVal.str "active")) ∧
    tConstOnly.value_map "status" = Option.none ∧
    vmGetValue tConstOnly.value_map "status" remptyRecord
      = Except.error
          ("No FieldValueResolver registered with value map under the name " ++ "status") :=
  ⟨rfl, by decide, rfl, rfl⟩

/-- C5 amended: the value map holds exactly the resolvers registered through
    the chain path — `map_source_to_target_field` adds the new chain resolver
    under the target name and touches no other name, while the const path,
    datasource registration and target-field declaration leave the value map
    untouched; `get_value` fails on an unregistered name and applies the
    registered resolver to the source record otherwise. -/
theorem value_map_chain_path_only :
    (∀ (t : RecordTransformer) (d f : String) (t' : RecordTransformer),
      t.map_source_to_target_field d f = Except.ok t' →
      t'.value_map f = some (mkFieldValueResolver d) ∧
      ∀ g, g ≠ f → t'.value_map g = t.value_map g) ∧
    (∀ (t : RecordTransformer) (f : String) (v : PyVal) (t' : RecordTransformer),
      t.map_const_to_target_field f v = Except.ok t' → t'.value_map = t.value_map) ∧
    (∀ (t : RecordTransformer) (f : String) (ds : Datasource) (t' : RecordTransformer),
      t.register_datasource f ds = Except.ok t' → t'.value_map = t.value_map) ∧
    (∀ (t : RecordTransformer) (f : String),
      (t.add_target_field f).value_map = t.value_map) ∧
    (∀ (vm : ValueMap) (f : String) (src : Record), vm f = Option.none →
      vmGetValue vm f src
        = Except.error
            ("No FieldValueResolver registered with value map under the name " ++ f)) ∧
    (∀ (vm : ValueMap) (f : String) (src : Record) (r : FieldResolver), vm f = some r →
      vmGetValue vm f src = Except.ok (r.resolve src)) := by
  refine ⟨?_, ?_, ?_, ?_, ?_, ?_⟩
  · intro t d f t' h
    by_cases hm : f ∈ t.target_record_fields
    · simp only [RecordTransformer.map_source_to_target_field, hm, if_true,
        Except.ok.injEq] at h
      subst h
      constructor
      · simp [vmAddResolver]
      · intro g hg
        simp [vmAddResolver, hg]
    · simp [RecordTransformer.map_source_to_target_field, hm] at h
  · intro t f v t' h
    by_cases hm : f ∈ t.target_record_fields
    · simp only [RecordTransformer.map_const_to_target_field, hm, if_true,
        Except.ok.injEq] at h
      subst h
      rfl
    · simp [RecordTransformer.map_const_to_target_field, hm] at h
  · intro t f ds t' h
    by_cases hm : f ∈ t.target_record_fields
    · simp only [RecordTransformer.register_datasource, hm, if_true,
        Except.ok.injEq] at h
      subst h
      rfl
    · simp [RecordTransformer.register_datasource, hm] at h
  · intro t f
    rw [RecordTransformer.add_target_field]
    split
    · rfl
    · rfl
  · intro vm f src h
    rw [vmGetValue, h]
  · intro vm f src r h
    rw [vmGetValue, h]

/-- Witness for the amended C5: the chain mapping of fullname registers its
    resolver in the value map (and `get_value` then resolves through it),
    while the const mapping of status registers nothing. -/
theorem value_map_chain_path_only_witness :
    t0Demo.map_source_to_target_field "full_name|name" "fullname" = Except.ok t1Demo ∧
    t1Demo.value_map "fullname" = some (mkFieldValueResolver "full_name|name") ∧
    t1Demo.map_const_to_target_field "status" (PyVal.str "active") = Except.ok t2Demo ∧
    t2Demo.value_map = t1Demo.value_map ∧
    t2Demo.value_map "status" = Option.none ∧
    vmGetValue t1Demo.value_map "fullname" srcDemo = Except.ok (PyVal.str "Jane Doe") :=
  ⟨rfl,
   (value_map_chain_path_only.1 t0Demo "full_name|name" "fullname" t1Demo rfl).1,
   rfl,
   value_map_chain_path_only.2.1 t1Demo "status" (PyVal.str "active") t2Demo rfl,
   rfl,
   value_map_chain_path_only.2.2.2.2.2 t1Demo.value_map "fullname" srcDemo
     (mkFieldValueResolver "full_name|name") rfl⟩

/-- C6: `lookup` fails with NoDatasourceForField exactly when no datasource is
    registered for the field; with a datasource lacking the operation named
    `lookup_<field>` it fails with NoSuchLookupMethod carrying the datasource
    class name and that operation name; otherwise it invokes the operation on
    (field name, source record, value map). -/
theorem lookup_error_characterization (t : RecordTransformer) (f : String) (src : Record) :
    (t.lookup f src = Except.error (DmapError.noDatasourceForField f) ↔
      t.datasources f = Option.none) ∧
    (∀ ds, t.datasources f = some ds → ds.methods ("lookup_" ++ f) = Option.none →
      t.lookup f src
        = Except.error (DmapError.noSuchLookupMethod ds.className ("lookup_" ++ f))) ∧
    (∀ ds op, t.datasources f = some ds → ds.methods ("lookup_" ++ f) = some op →
      t.lookup f src = Except.ok (op f src t.value_map)) := by
  refine ⟨⟨?_, ?_⟩, ?_, ?_⟩
  · intro h
    cases hds : t.datasources f with
    | none => rfl
    | some ds =>
        cases hm : ds.methods ("lookup_" ++ f) with
        | none => simp [RecordTransformer.lookup, hds, hm] at h
        | some op => simp [RecordTransformer.lookup, hds, hm] at h
  · intro hds
    simp [RecordTransformer.lookup, hds]
  · intro ds hds hm
    simp [RecordTransformer.lookup, hds, hm]
  · intro ds op hds hm
    simp [RecordTransformer.lookup, hds, hm]

/-- Witness for C6: on tDemo, region resolves through the stub datasource's
    `lookup_region`; fullname has no datasource and fails accordingly; on
    tWrong, field "g" is bound to a datasource without `lookup_g` and fails
    with the class and operation names in the error. -/
theorem lookup_error_characterization_witness :
    tDemo.datasources "region" = some dsStub ∧
    dsStub.methods ("lookup_" ++ "region") = some (fun _ _ _ => PyVal.str "EAST") ∧
    tDemo.lookup "region" srcDemo = Except.ok (PyVal.str "EAST") ∧
    tDemo.datasources "fullname" = Option.none ∧
    tDemo.lookup "fullname" srcDemo
      = Except.error (DmapError.noDatasourceForField "fullname") ∧
    tWrong.datasources "g" = some dsF ∧
    dsF.methods ("lookup_" ++ "g") = Option.none ∧
    tWrong.lookup "g" srcDemo
      = Except.error (DmapError.noSuchLookupMethod "FDatasource" ("lookup_" ++ "g")) :=
  ⟨rfl, rfl,
   (lookup_error_characterization tDemo "region" srcDemo).2.2 dsStub
     (fun _ _ _ => PyVal.str "EAST") rfl rfl,
   rfl,
   (lookup_error_characterization tDemo "fullname" srcDemo).1.mpr rfl,
   rfl, rfl,
   (lookup_error_characterization tWrong "g" srcDemo).2.1 dsF rfl rfl⟩

/- Helper lemma: the required-field scan reports the first failing field. -/

theorem findFirstError_first (r : Record) :
    ∀ (req : List (String × String)) (n k : String),
      findFirstError req r = some (n, k) →
      ∃ pre dt post, req = pre ++ (n, dt) :: post ∧
        (∀ p ∈ pre, pyGetIsNone r p.1 = false ∧
          match_format ((r p.1).getD PyVal.none) = true) ∧
        ((k = "null" ∧ pyGetIsNone r n = true) ∨
         (k = "invalid_type" ∧ pyGetIsNone r n = false)) := by
  intro req
  induction req with
  | nil => intro n k h; cases h
  | cons p rest ih =>
      intro n k h
      obtain ⟨name, dt⟩ := p
      by_cases hnull : pyGetIsNone r name = true
      · simp only [findFirstError, hnull, if_true] at h
        rw [Option.some.injEq, Prod.mk.injEq] at h
        obtain ⟨h1, h2⟩ := h
        subst h1
        subst h2
        refine ⟨[], dt, rest, rfl, ?_, Or.inl ⟨rfl, hnull⟩⟩
        intro p hp
        cases hp
      · have hfalse : pyGetIsNone r name = false := by
          cases hb : pyGetIsNone r name with
          | true => exact absurd hb hnull
          | false => rfl
        have hrest : findFirstError rest r = some (n, k) := by
          simpa [findFirstError, hfalse, match_format] using h
        obtain ⟨pre, dt2, post, hsplit, hpre, hkind⟩ := ih n k hrest
        refine ⟨(name, dt) :: pre, dt2, post, by rw [hsplit]; rfl, ?_, hkind⟩
        intro q hq
        rcases List.mem_cons.mp hq with hq1 | hq2
        · subst hq1
          exact ⟨hfalse, rfl⟩
        · exact hpre q hq2

/-- C7: one `_process` call hands the record back unchanged, increments
    exactly one of the two counters (so the exposed total equals valid plus
    invalid), bumps the record index, writes at most the entry for the
    current record index into the error ledger, and any entry it writes names
    the first failing required field (all earlier required fields passed). -/
theorem compliance_process_invariants (s : ComplianceStats) (record_dict : Record)
    (s' : ComplianceStats) (ret : Record)
    (heq : cstatsProcess s record_dict = (s', ret)) :
    ret = record_dict ∧
    s'.record_index = s.record_index + 1 ∧
    (s'.valid_record_count = s.valid_record_count + 1 ∧
        s'.invalid_record_count = s.invalid_record_count ∨
     s'.valid_record_count = s.valid_record_count ∧
        s'.invalid_record_count = s.invalid_record_count + 1) ∧
    s'.total_records = s'.valid_records + s'.invalid_records ∧
    (∀ j, j ≠ s.record_index + 1 → s'.error_table j = s.error_table j) ∧
    (∀ n k, s'.error_table (s.record_index + 1) = some (n, k) →
      s.error_table (s.record_index + 1) = some (n, k) ∨
      ∃ pre dt post, s.required_fields = pre ++ (n, dt) :: post ∧
        (∀ p ∈ pre, pyGetIsNone record_dict p.1 = false ∧
          match_format ((record_dict p.1).getD PyVal.none) = true) ∧
        ((k = "null" ∧ pyGetIsNone record_dict n = true) ∨
         (k = "invalid_type" ∧ pyGetIsNone record_dict n = false))) := by
  cases hf : findFirstError s.required_fields record_dict with
  | some err =>
      simp only [cstatsProcess, hf] at heq
      cases heq
      refine ⟨rfl, rfl, Or.inr ⟨rfl, rfl⟩, rfl, ?_, ?_⟩
      · intro j hj
        simp only [if_neg hj]
      · intro n k h
        simp only [eq_self_iff_true, if_true] at h
        right
        obtain ⟨en, ek⟩ := err
        rw [Option.some.injEq, Prod.mk.injEq] at h
        obtain ⟨h1, h2⟩ := h
        subst h1
        subst h2
        exact findFirstError_first record_dict s.required_fields en ek hf
  | none =>
      simp only [cstatsProcess, hf] at heq
      cases heq
      exact ⟨rfl, rfl, Or.inl ⟨rfl, rfl⟩, rfl, fun j _ => rfl, fun n k h => Or.inl h⟩

/-- Witness for C7: processing the email-less record recB from the initial
    state: the record comes back unchanged and the invalid counter is the one
    that moves. -/
theorem compliance_process_invariants_witness :
    cstatsProcess (initComplianceStats reqNameEmail) recB = (cbState, recB) ∧
    (recB = recB) ∧
    (cbState.valid_record_count = 0 + 1 ∧ cbState.invalid_record_count = 0 ∨
     cbState.valid_record_count = 0 ∧ cbState.invalid_record_count = 0 + 1) :=
  ⟨rfl,
   (compliance_process_invariants (initComplianceStats reqNameEmail) recB cbState recB
     rfl).1,
   (compliance_process_invariants (initComplianceStats reqNameEmail) recB cbState recB
     rfl).2.2.1⟩

/-- C1 counterexample: on required fields name, email and the records A, B, C
    (C carrying an empty-string email), the code counts C as valid — the scan
    tests `get(name) is None`, which an empty string does not satisfy — so
    the run ends with valid 2, invalid 1 and no ledger entry for record 3,
    contradicting the claimed valid 1 / invalid 2 / entry at index 3. -/
theorem compliance_empty_string_counterexample :
    c1Run.valid_records = 2 ∧ c1Run.invalid_records = 1 ∧
    c1Run.error_table 2 = some ("email", "null") ∧
    c1Run.error_table 3 = Option.none ∧
    ¬ (c1Run.valid_records = 1 ∧ c1Run.invalid_records = 2 ∧
       c1Run.error_table 2 = some ("email", "null") ∧
       c1Run.error_table 3 = some ("email", "null")) := by decide

/-- C1 amended: a required field present but bound to the empty string counts
    as valid (only a missing or None-bound field is recorded as "null"), so
    the scenario ends with valid 2, invalid 1 and the single ledger entry
    2 ↦ (email, null); the outcome is the same under the opposite
    required-field iteration order. -/
theorem compliance_empty_string_is_valid :
    findFirstError reqNameEmail recC = Option.none ∧
    c1Run.valid_records = 2 ∧ c1Run.invalid_records = 1 ∧ c1Run.total_records = 3 ∧
    c1Run.error_table 1 = Option.none ∧
    c1Run.error_table 2 = some ("email", "null") ∧
    c1Run.error_table 3 = Option.none ∧
    c1RunSwapped.valid_records = 2 ∧ c1RunSwapped.invalid_records = 1 ∧
    c1RunSwapped.error_table 2 = some ("email", "null") := by decide

/- Helper lemma: once the record count is positive, every call prints the
   record's data row. -/

theorem d2csvRun_pos (header_fields : List String) (delimiter : String) :
    ∀ (records : List Record) (c : Nat), c ≠ 0 →
      d2csvRun header_fields delimiter c records
        = (records.map (csvRow header_fields delimiter), records) := by
  intro records
  induction records with
  | nil => intro c _; rfl
  | cons r rest ih =>
      intro c hc
      simp only [d2csvRun, d2csvProcess, if_neg hc]
      rw [ih (c + 1) (Nat.succ_ne_zero c)]
      simp [List.map_cons]

/-- C10: starting from a fresh processor, the printed lines are exactly the
    delimiter-joined header followed by one data row per record from the
    second record on (the first record's data row is never printed; missing
    or None-valued fields print as the empty string inside `csvRow`), and
    every call returns its input record unchanged. -/
theorem d2csv_output_characterization (header_fields : List String) (delimiter : String)
    (records : List Record) :
    (d2csvRun header_fields delimiter 0 records).2 = records ∧
    (records ≠ [] →
      (d2csvRun header_fields delimiter 0 records).1
        = String.intercalate delimiter header_fields
            :: (records.drop 1).map (csvRow header_fields delimiter)) := by
  cases records with
  | nil => exact ⟨rfl, fun h => absurd rfl h⟩
  | cons r rest =>
      have hrest := d2csvRun_pos header_fields delimiter rest (0 + 1) (Nat.succ_ne_zero 0)
      constructor
      · simp [d2csvRun, d2csvProcess, hrest]
      · intro _
        simp [d2csvRun, d2csvProcess, hrest, List.drop_one]

/-- Witness for C10 at a concrete batch: with header name, email and records
    recA, recB the processor prints the header and then only recB's row. -/
theorem d2csv_output_characterization_witness :
    ([recA, recB] : List Record) ≠ [] ∧
    (d2csvRun ["name", "email"] "|" 0 [recA, recB]).1
      = String.intercalate "|" ["name", "email"]
          :: ([recA, recB].drop 1).map (csvRow ["name", "email"] "|") :=
  ⟨by simp,
   (d2csv_output_characterization ["name", "email"] "|" [recA, recB]).2 (by simp)⟩

/- Helper lemmas for the heap-level transform. -/

theorem heapWrite_get_ne (h : Heap) (a : Nat) (k : String) (v : Option PyVal) (i : Nat)
    (hia : i ≠ a) : List.get? (heapWrite h a k v) i = List.get? h i := by
  rw [heapWrite]
  cases hga : List.get? h a with
  | none => rfl
  | some r =>
      simp [List.get?_eq_getElem?, List.getElem?_set_ne (Ne.symm hia)]

theorem heapWrite_get_self (h : Heap) (a : Nat) (k : String) (v : Option PyVal) (r : Record)
    (hga : List.get? h a = some r) :
    List.get? (heapWrite h a k v) a = some (rset r k v) := by
  have hlt : a < List.length h := (List.get?_eq_some.mp hga).1
  rw [heapWrite, hga]
  simp [List.get?_eq_getElem?, List.getElem?_set_self, hlt]

theorem foldl_heapWrite_get_ne (a i : Nat) (hia : i ≠ a) :
    ∀ (ps : List (String × PyVal)) (h : Heap),
      List.get? (ps.foldl (fun hh p => heapWrite hh a p.1 (some p.2)) h) i
        = List.get? h i := by
  intro ps
  induction ps with
  | nil => intro h; rfl
  | cons p rest ih =>
      intro h
      rw [List.foldl_cons, ih, heapWrite_get_ne h a p.1 (some p.2) i hia]

theorem foldl_heapWrite_get_self (a : Nat) :
    ∀ (ps : List (String × PyVal)) (h : Heap) (r : Record),
      List.get? h a = some r →
      List.get? (ps.foldl (fun hh p => heapWrite hh a p.1 (some p.2)) h) a
        = some (ps.foldl (fun rr p => rset rr p.1 (some p.2)) r) := by
  intro ps
  induction ps with
  | nil => intro h r hga; exact hga
  | cons p rest ih =>
      intro h r hga
      rw [List.foldl_cons, List.foldl_cons]
      exact ih _ _ (heapWrite_get_self h a p.1 (some p.2) r hga)

theorem get?_append_singleton_ne (h : Heap) (r : Record) (i : Nat)
    (hne : i ≠ List.length h) :
    List.get? (List.append h [r]) i = List.get? h i := by
  induction h generalizing i with
  | nil =>
      cases i with
      | zero => exact absurd rfl hne
      | succ n => rfl
  | cons x xs ih =>
      cases i with
      | zero => rfl
      | succ n =>
          exact ih n (fun e => hne (by simp [List.length_cons, e]))

theorem get?_append_singleton_self (h : Heap) (r : Record) :
    List.get? (List.append h [r]) (List.length h) = some r := by
  induction h with
  | nil => rfl
  | cons x xs ih => exact ih

theorem transformHeapFields_get_ne (t : RecordTransformer) (src : Record) (a i : Nat)
    (hia : i ≠ a) :
    ∀ (fields : List String) (h h' : Heap),
      transformHeapFields t src fields h a = Except.ok h' →
      List.get? h' i = List.get? h i := by
  intro fields
  induction fields with
  | nil =>
      intro h h' hh
      cases hh
      rfl
  | cons f rest ih =>
      intro h h' hh
      cases hr : resolveField t f src with
      | none =>
          simp only [transformHeapFields, hr] at hh
          exact ih h h' hh
      | some res =>
          cases res with
          | error e =>
              simp only [transformHeapFields, hr] at hh
              cases hh
          | ok v =>
              simp only [transformHeapFields, hr] at hh
              rw [ih _ h' hh, heapWrite_get_ne h a f (some v) i hia]

theorem transformHeapFields_parallel (t : RecordTransformer) (src : Record) (a : Nat) :
    ∀ (fields : List String) (h : Heap) (r : Record) (h' : Heap),
      List.get? h a = some r →
      transformHeapFields t src fields h a = Except.ok h' →
      ∃ out, transformFields t src fields r = Except.ok out ∧
        List.get? h' a = some out := by
  intro fields
  induction fields with
  | nil =>
      intro h r h' hga hh
      cases hh
      exact ⟨r, rfl, hga⟩
  | cons f rest ih =>
      intro h r h' hga hh
      cases hr : resolveField t f src with
      | none =>
          simp only [transformHeapFields, hr] at hh
          obtain ⟨out, hout, hget⟩ := ih h r h' hga hh
          refine ⟨out, ?_, hget⟩
          simp only [transformFields, hr]
          exact hout
      | some res =>
          cases res with
          | error e =>
              simp only [transformHeapFields, hr] at hh
              cases hh
          | ok v =>
              simp only [transformHeapFields, hr] at hh
              obtain ⟨out, hout, hget⟩ :=
                ih _ (rset r f (some v)) h'
                  (heapWrite_get_self h a f (some v) r hga) hh
              refine ⟨out, ?_, hget⟩
              simp only [transformFields, hr]
              exact hout

/-- C8: the heap-level transform — where resolvers and lookup operations are
    pure (read-only) functions of the record values — allocates the target
    record at a fresh address, leaves every pre-existing heap cell, the source
    record's included, untouched, and the fresh cell ends up holding exactly
    the functional transform of the source record: the output never aliases
    the input. -/
theorem transform_no_mutation_frame (t : RecordTransformer) (h : Heap) (srcAddr : Nat)
    (kwargs : List (String × PyVal)) (h' : Heap) (a : Nat)
    (hok : transformHeap t h srcAddr kwargs = Except.ok (h', a)) :
    a = List.length h ∧
    (∀ i, i ≠ a → List.get? h' i = List.get? h i) ∧
    (srcAddr < List.length h →
      a ≠ srcAddr ∧ List.get? h' srcAddr = List.get? h srcAddr) ∧
    ∃ out, t.transform ((List.get? h srcAddr).getD remptyRecord) kwargs = Except.ok out ∧
      List.get? h' a = some out := by
  simp only [transformHeap] at hok
  cases hfields : transformHeapFields t ((List.get? h srcAddr).getD remptyRecord)
      t.target_record_fields
      (kwargs.foldl (fun hh p => heapWrite hh (List.length h) p.1 (some p.2))
        (List.append h [remptyRecord]))
      (List.length h) with
  | error e =>
      rw [hfields] at hok
      cases hok
  | ok h3 =>
      rw [hfields] at hok
      rw [Except.ok.injEq, Prod.mk.injEq] at hok
      obtain ⟨hh3, hlen⟩ := hok
      subst hh3
      subst hlen
      have hframe : ∀ i, i ≠ List.length h → List.get? h3 i = List.get? h i := by
        intro i hi
        rw [transformHeapFields_get_ne t _ (List.length h) i hi _ _ h3 hfields,
          foldl_heapWrite_get_ne (List.length h) i hi,
          get?_append_singleton_ne h remptyRecord i hi]
      refine ⟨rfl, hframe, ?_, ?_⟩
      · intro hsrc
        have hne : srcAddr ≠ List.length h := Nat.ne_of_lt hsrc
        exact ⟨fun e => hne e.symm, hframe srcAddr hne⟩
      · have hbase : List.get?
            (kwargs.foldl (fun hh p => heapWrite hh (List.length h) p.1 (some p.2))
              (List.append h [remptyRecord])) (List.length h)
            = some (rofList kwargs) :=
          foldl_heapWrite_get_self (List.length h) kwargs (List.append h [remptyRecord])
            remptyRecord (get?_append_singleton_self h remptyRecord)
        exact transformHeapFields_parallel t _ (List.length h) t.target_record_fields _
          (rofList kwargs) h3 hbase hfields

/-- Witness for C8: a one-record heap holding the demo source record; the
    transform allocates address 1 and address 0 still holds the source. -/
theorem transform_no_mutation_frame_witness :
    transformHeap tDemo heapDemo 0 [] = Except.ok (heapDemoOut, 1) ∧
    (0 : Nat) < List.length heapDemo ∧
    ((1 : Nat) ≠ 0 ∧ List.get? heapDemoOut 0 = List.get? heapDemo 0) :=
  ⟨rfl, by decide,
   (transform_no_mutation_frame tDemo heapDemo 0 [] heapDemoOut 1 rfl).2.2.1 (by decide)⟩

end Snap
